import Mathlib

/-!
Verification of the safe expression evaluator embedded in the advanced
calculator (`calculatorphyton.py`).  The Python abstract syntax trees, the
allow-list validation walk (`SafeEvaluator._check_node`), the recursive
evaluator (`SafeEvaluator._eval` / `eval_expr`), the session wrapper
(`Calculator.assign` / `Calculator.evaluate` / `save` / `load`) and the
relevant built-in functions are embedded as executable Lean definitions.
Machine floats are modelled as exact rationals; transcendental built-ins
(`sin`, `sqrt`, ...) whose results are not exactly representable are kept
abstract and their application yields a dedicated `extNotModelled` failure,
which no claim exercises.
-/

/-- Failure kinds of the evaluator.  Each constructor records which Python
exception the source raises: `parseError` and `rejected`, `notCallable`,
`unsupportedOp`, `unsupportedNode`, `invalidName` are `ValueError`s raised by
the calculator itself; `nameError` is `NameError`; `typeError` is `TypeError`;
`zeroDivision` is `ZeroDivisionError` (a subclass of `ArithmeticError`);
`domainError` is the `ValueError` a `math` domain violation raises, which the
specification files under its `ArithmeticError` class (domain errors);
`extNotModelled` marks operations on unmodelled floating-point data that no
claim reaches. -/
inductive Err where
  | parseError (msg : String)
  | rejected (kind : String)
  | nameError (name : String)
  | typeError (msg : String)
  | zeroDivision
  | domainError (msg : String)
  | notCallable
  | unsupportedOp
  | unsupportedNode (kind : String)
  | invalidName
  | extNotModelled (what : String)
deriving DecidableEq, Repr

/-- The spec error class `ArithmeticError`: division/modulo by zero and math
domain errors (spec section 7). -/
def Err.isArithmeticError : Err → Bool
  | .zeroDivision => true
  | .domainError _ => true
  | _ => false

/-- The spec error class `TypeError`. -/
def Err.isTypeError : Err → Bool
  | .typeError _ => true
  | _ => false

/-- The spec error class `RejectedSyntax` (the calculator raises `ValueError`
with message `Unsupported expression element: <kind>`). -/
def Err.isRejected : Err → Bool
  | .rejected _ => true
  | _ => false

/-- Built-in callables reachable from expressions.  `factorial` and `gcd`
(from `MATH_FUNCS`) and the five `UTIL_FUNCS` are modelled; the remaining
real- and complex-valued `math`/`cmath` functions are abstract (`extFn`),
since their floating-point results are not exactly representable. -/
inductive Fn where
  | factorial
  | gcd
  | avg
  | sum
  | min
  | max
  | pct
  | extFn (name : String)
deriving DecidableEq, Repr

/-- Runtime values.  Python `int` is `Int`; Python `float` is an exact
rational, with `nan`, signed infinity and the irrational built-in constants
(`pi`, `e`, `tau`) kept abstract as `extReal`; tuples and lists hold their
elements; `func` is a callable built-in. -/
inductive Value where
  | int (n : Int)
  | real (q : ℚ)
  | nan
  | inf (pos : Bool)
  | extReal (name : String)
  | bool (b : Bool)
  | str (s : String)
  | none
  | tuple (elts : List Value)
  | list (elts : List Value)
  | func (f : Fn)

/-- Python `callable`. -/
def Value.isCallable : Value → Bool
  | .func _ => true
  | _ => false

/-- Binary operator node kinds (children of `ast.BinOp`); the first seven are
in `ALLOWED_NODES`, the rest are not. -/
inductive BinOpKind where
  | add
  | sub
  | mult
  | div
  | floorDiv
  | mod
  | pow
  | lshift
  | rshift
  | bitOr
  | bitXor
  | bitAnd
  | matMult
deriving DecidableEq, Repr

/-- Unary operator node kinds (children of `ast.UnaryOp`); `UAdd`/`USub` are
allow-listed, `Not`/`Invert` are not. -/
inductive UnaryOpKind where
  | uadd
  | usub
  | notOp
  | invert
deriving DecidableEq, Repr

/-- Constant literal payloads of an `ast.Constant` node. -/
inductive Const where
  | int (n : Int)
  | real (q : ℚ)
  | bool (b : Bool)
  | str (s : String)
  | none
deriving DecidableEq, Repr

/-- Python expression AST (`ast.parse(expr, mode='eval')` body).  The first
seven constructors are the expression kinds in `ALLOWED_NODES`; the remaining
ones model representative disallowed expression kinds the claims mention. -/
inductive PyExpr where
  | const (c : Const)
  | name (id : String)
  | binOp (left : PyExpr) (op : BinOpKind) (right : PyExpr)
  | unaryOp (op : UnaryOpKind) (operand : PyExpr)
  | call (fn : PyExpr) (args : List PyExpr) (kwargs : List (String × PyExpr))
  | tuple (elts : List PyExpr)
  | list (elts : List PyExpr)
  | attr (value : PyExpr) (attrName : String)
  | subscript (value : PyExpr) (index : PyExpr)
  | lam (params : List String) (body : PyExpr)
  | namedExpr (target : String) (value : PyExpr)
  | compare (left : PyExpr) (comparators : List PyExpr)
  | boolOp (isAnd : Bool) (values : List PyExpr)
  | ifExp (test : PyExpr) (body : PyExpr) (orelse : PyExpr)
  | listComp (elt : PyExpr) (iter : PyExpr)
  | dict (keys : List PyExpr) (vals : List PyExpr)
  | starred (value : PyExpr)

/-- Python AST class name of a binary operator node. -/
def BinOpKind.kindName : BinOpKind → String
  | .add => "Add"
  | .sub => "Sub"
  | .mult => "Mult"
  | .div => "Div"
  | .floorDiv => "FloorDiv"
  | .mod => "Mod"
  | .pow => "Pow"
  | .lshift => "LShift"
  | .rshift => "RShift"
  | .bitOr => "BitOr"
  | .bitXor => "BitXor"
  | .bitAnd => "BitAnd"
  | .matMult => "MatMult"

/-- Python AST class name of a unary operator node. -/
def UnaryOpKind.kindName : UnaryOpKind → String
  | .uadd => "UAdd"
  | .usub => "USub"
  | .notOp => "Not"
  | .invert => "Invert"

/-- Python AST class name of an expression node. -/
def PyExpr.kindName : PyExpr → String
  | .const _ => "Constant"
  | .name _ => "Name"
  | .binOp _ _ _ => "BinOp"
  | .unaryOp _ _ => "UnaryOp"
  | .call _ _ _ => "Call"
  | .tuple _ => "Tuple"
  | .list _ => "List"
  | .attr _ _ => "Attribute"
  | .subscript _ _ => "Subscript"
  | .lam _ _ => "Lambda"
  | .namedExpr _ _ => "NamedExpr"
  | .compare _ _ => "Compare"
  | .boolOp _ _ => "BoolOp"
  | .ifExp _ _ _ => "IfExp"
  | .listComp _ _ => "ListComp"
  | .dict _ _ => "Dict"
  | .starred _ => "Starred"

/-- The class names of `ALLOWED_NODES` in `calculatorphyton.py` (with
`Expression` the `mode='eval'` wrapper; `Num` is the pre-3.8 literal class,
never produced by a modern parse). -/
def allowedKindNames : List String :=
  ["Expression", "BinOp", "UnaryOp", "Num", "Constant", "Name", "Load",
   "Add", "Sub", "Mult", "Div", "FloorDiv", "Mod", "Pow", "UAdd", "USub",
   "Call", "Tuple", "List"]

/-- Membership in the allow-list, as the `isinstance(node, ALLOWED_NODES)`
check performs it. -/
def isAllowedKind (k : String) : Bool :=
  allowedKindNames.contains k

mutual

/-- Class names of all AST nodes reachable from an expression node, in the
pre-order `_check_node` visits them: the node itself, then its children in
field order (`ast.iter_child_nodes`).  Operator and context helper nodes
(`Add`, `Load`, `keyword`, `arguments`, ...) are AST nodes and appear in the
walk. -/
def preKinds : PyExpr → List String
  | .const _ => ["Constant"]
  | .name _ => ["Name", "Load"]
  | .binOp l op r => "BinOp" :: (preKinds l ++ [op.kindName] ++ preKinds r)
  | .unaryOp op e => "UnaryOp" :: op.kindName :: preKinds e
  | .call f args kws =>
      "Call" :: (preKinds f ++ preKindsList args ++ preKindsKw kws)
  | .tuple elts => "Tuple" :: (preKindsList elts ++ ["Load"])
  | .list elts => "List" :: (preKindsList elts ++ ["Load"])
  | .attr v _ => "Attribute" :: (preKinds v ++ ["Load"])
  | .subscript v i => "Subscript" :: (preKinds v ++ preKinds i ++ ["Load"])
  | .lam ps b => "Lambda" :: "arguments" :: (ps.map (fun _ => "arg") ++ preKinds b)
  | .namedExpr _ v => "NamedExpr" :: "Name" :: "Store" :: preKinds v
  | .compare l cs => "Compare" :: (preKinds l ++ cs.map (fun _ => "Eq") ++ preKindsList cs)
  | .boolOp isAnd vs => "BoolOp" :: (if isAnd then "And" else "Or") :: preKindsList vs
  | .ifExp t b e => "IfExp" :: (preKinds t ++ preKinds b ++ preKinds e)
  | .listComp e i => "ListComp" :: (preKinds e ++ "comprehension" :: preKinds i)
  | .dict ks vs => "Dict" :: (preKindsList ks ++ preKindsList vs)
  | .starred v => "Starred" :: (preKinds v ++ ["Load"])

/-- `preKinds` over a child list. -/
def preKindsList : List PyExpr → List String
  | [] => []
  | e :: es => preKinds e ++ preKindsList es

/-- `preKinds` over keyword arguments: each `ast.keyword` node is itself
visited, then its value expression. -/
def preKindsKw : List (String × PyExpr) → List String
  | [] => []
  | (_, e) :: kws => "keyword" :: (preKinds e ++ preKindsKw kws)

end

mutual

/-- `SafeEvaluator._check_node`: reject the node if its class is not in
`ALLOWED_NODES`, then recurse into every child node in field order. -/
def checkNode : PyExpr → Except Err Unit
  | .const _ => .ok ()
  | .name _ => .ok ()
  | .binOp l op r => do
      checkNode l
      if isAllowedKind op.kindName then pure () else Except.error (.rejected op.kindName)
      checkNode r
  | .unaryOp op e => do
      if isAllowedKind op.kindName then pure () else Except.error (.rejected op.kindName)
      checkNode e
  | .call f args kws => do
      checkNode f
      checkList args
      checkKwList kws
  | .tuple elts => checkList elts
  | .list elts => checkList elts
  | .attr _ _ => Except.error (.rejected "Attribute")
  | .subscript _ _ => Except.error (.rejected "Subscript")
  | .lam _ _ => Except.error (.rejected "Lambda")
  | .namedExpr _ _ => Except.error (.rejected "NamedExpr")
  | .compare _ _ => Except.error (.rejected "Compare")
  | .boolOp _ _ => Except.error (.rejected "BoolOp")
  | .ifExp _ _ _ => Except.error (.rejected "IfExp")
  | .listComp _ _ => Except.error (.rejected "ListComp")
  | .dict _ _ => Except.error (.rejected "Dict")
  | .starred _ => Except.error (.rejected "Starred")

/-- `_check_node` over a list of child expressions. -/
def checkList : List PyExpr → Except Err Unit
  | [] => .ok ()
  | e :: es => do
      checkNode e
      checkList es

/-- `_check_node` over keyword arguments: `ast.keyword` is not in
`ALLOWED_NODES`, so any keyword argument is rejected as soon as visited. -/
def checkKwList : List (String × PyExpr) → Except Err Unit
  | [] => .ok ()
  | _ :: _ => Except.error (.rejected "keyword")

end

/-- View of a value as a Python number: `int` and `bool` (Python `bool` is an
`int` subclass, `True` counting as 1) on the left, `float` on the right.
`nan`, infinities and the abstract constants are outside the view; arithmetic
on them is not modelled (no claim touches it). -/
def numView : Value → Option (Int ⊕ ℚ)
  | .int n => some (.inl n)
  | .bool b => some (.inl (if b then 1 else 0))
  | .real q => some (.inr q)
  | _ => Option.none

/-- The rational a viewed number denotes. -/
def toQ : Int ⊕ ℚ → ℚ
  | .inl n => (n : ℚ)
  | .inr q => q

/-- Apply an `int × int → int` operation when both operands are ints, else the
float operation on the promoted operands, as Python numeric promotion does. -/
def numBin (f : Int → Int → Int) (g : ℚ → ℚ → ℚ) (a b : Int ⊕ ℚ) : Value :=
  match a, b with
  | .inl m, .inl n => .int (f m n)
  | _, _ => .real (g (toQ a) (toQ b))

/-- Python exponentiation on numbers: `int ** nonneg int` is an `int`; a
negative exponent produces a `float` (and `0 ** negative` raises
`ZeroDivisionError`); any `float` operand gives a `float` provided the
exponent is integral (a fractional exponent has an irrational result and is
not modelled). -/
def numPow (a b : Int ⊕ ℚ) : Except Err Value :=
  match a, b with
  | .inl m, .inl n =>
      if 0 ≤ n then .ok (.int (m ^ n.toNat))
      else if m = 0 then .error .zeroDivision
      else .ok (.real ((m : ℚ) ^ n))
  | _, _ =>
      match b with
      | .inl n =>
          if toQ a = 0 ∧ n < 0 then .error .zeroDivision
          else .ok (.real (toQ a ^ n))
      | .inr q =>
          if q.den = 1 then
            if toQ a = 0 ∧ q.num < 0 then .error .zeroDivision
            else .ok (.real (toQ a ^ q.num))
          else .error (.extNotModelled "fractional exponent")

/-- The seven allow-listed binary operators on Python numbers.  `/` always
returns a `float`; `//` and `%` use floor-division semantics (the modulo sign
follows the divisor); a zero right operand of `/`, `//`, `%` raises
`ZeroDivisionError`. -/
def numericOp (op : BinOpKind) (a b : Int ⊕ ℚ) : Except Err Value :=
  match op with
  | .add => .ok (numBin (fun m n => m + n) (fun x y => x + y) a b)
  | .sub => .ok (numBin (fun m n => m - n) (fun x y => x - y) a b)
  | .mult => .ok (numBin (fun m n => m * n) (fun x y => x * y) a b)
  | .div =>
      if toQ b = 0 then .error .zeroDivision
      else .ok (.real (toQ a / toQ b))
  | .floorDiv =>
      if toQ b = 0 then .error .zeroDivision
      else .ok (numBin Int.fdiv (fun x y => ((Int.floor (x / y) : Int) : ℚ)) a b)
  | .mod =>
      if toQ b = 0 then .error .zeroDivision
      else .ok (numBin Int.fmod (fun x y => x - y * ((Int.floor (x / y) : Int) : ℚ)) a b)
  | .pow => numPow a b
  | _ => .error .unsupportedOp

/-- `_eval`'s `BinOp` branch after both operands are evaluated: dispatch on
the operator class; a non-allow-listed operator raises
`ValueError("Unsupported operator")` (unreachable past validation).  Operand
combinations outside the numeric view (sequences, `nan`, infinities, abstract
constants) are not modelled; no claim reaches them. -/
def binOpVal (op : BinOpKind) (l r : Value) : Except Err Value :=
  match op with
  | .lshift | .rshift | .bitOr | .bitXor | .bitAnd | .matMult =>
      .error .unsupportedOp
  | _ =>
      match numView l, numView r with
      | some a, some b => numericOp op a b
      | _, _ => .error (.extNotModelled "binary operation on non-numeric operands")

/-- `_eval`'s `UnaryOp` branch after the operand is evaluated: `+x` is the
identity on numbers, `-x` negates; `not`/`~` raise
`ValueError("Unsupported unary operator")` (unreachable past validation). -/
def unaryVal (op : UnaryOpKind) (v : Value) : Except Err Value :=
  match op with
  | .uadd =>
      match v with
      | .int n => .ok (.int n)
      | .bool b => .ok (.int (if b then 1 else 0))
      | .real q => .ok (.real q)
      | .nan => .ok .nan
      | .inf p => .ok (.inf p)
      | .extReal s => .ok (.extReal s)
      | _ => .error (.typeError "bad operand type for unary plus")
  | .usub =>
      match v with
      | .int n => .ok (.int (-n))
      | .bool b => .ok (.int (if b then -1 else 0))
      | .real q => .ok (.real (-q))
      | .nan => .ok .nan
      | .inf p => .ok (.inf (!p))
      | .extReal _ => .error (.extNotModelled "negated abstract constant")
      | _ => .error (.typeError "bad operand type for unary minus")
  | .notOp | .invert => .error .unsupportedOp

/-- `math.factorial` (Python standard library, modelled from its documented
behaviour and the spec): requires one non-negative integral argument; a
negative `int` raises the domain `ValueError`, a `float` raises `TypeError`. -/
def pyFactorial (args : List Value) (kwargs : List (String × Value)) : Except Err Value :=
  if !kwargs.isEmpty then .error (.typeError "factorial takes no keyword arguments")
  else match args with
  | [v] =>
      match numView v with
      | some (.inl n) =>
          if n < 0 then .error (.domainError "factorial not defined for negative values")
          else .ok (.int (Nat.factorial n.toNat))
      | some (.inr _) => .error (.typeError "float cannot be interpreted as an integer")
      | Option.none => .error (.typeError "argument must be an integer")
  | _ => .error (.typeError "factorial takes exactly one argument")

/-- `math.gcd` (Python standard library, modelled from its documented
behaviour): any number of integral arguments, non-negative result. -/
def pyGcd (args : List Value) (kwargs : List (String × Value)) : Except Err Value :=
  if !kwargs.isEmpty then .error (.typeError "gcd takes no keyword arguments")
  else
    let ints := args.mapM (fun v =>
      match numView v with
      | some (.inl n) => some n
      | _ => Option.none)
    match ints with
    | some ns => .ok (.int (ns.foldl (fun acc n => Int.gcd acc n) 0))
    | Option.none => .error (.typeError "gcd arguments must be integers")

/-- Python's built-in `sum` over the argument tuple, starting from `int 0` and
adding left to right with Python numeric addition. -/
def pySumFold (acc : Value) : List Value → Except Err Value
  | [] => .ok acc
  | v :: vs =>
      match binOpVal .add acc v with
      | .ok w => pySumFold w vs
      | .error e => .error e

/-- `UTIL_FUNCS['avg'] = lambda *xs: (sum(xs) / len(xs)) if xs else float('nan')`:
the empty call returns `nan`; otherwise the sum of the arguments is divided by
their count (a `float` result, since `/` is true division). -/
def pyAvg (args : List Value) (kwargs : List (String × Value)) : Except Err Value :=
  if !kwargs.isEmpty then .error (.typeError "avg takes no keyword arguments")
  else if args.isEmpty then .ok .nan
  else do
    let s ← pySumFold (.int 0) args
    binOpVal .div s (.int args.length)

/-- `UTIL_FUNCS['sum'] = lambda *xs: sum(xs)`. -/
def pySum (args : List Value) (kwargs : List (String × Value)) : Except Err Value :=
  if !kwargs.isEmpty then .error (.typeError "sum takes no keyword arguments")
  else pySumFold (.int 0) args

/-- Fold of Python's `min` over numbers: keep the earlier element on ties,
replace only on strictly smaller. -/
def pyMinFold (cur : Value) : List Value → Except Err Value
  | [] => .ok cur
  | x :: xs =>
      match numView cur, numView x with
      | some a, some b => pyMinFold (if toQ b < toQ a then x else cur) xs
      | _, _ => .error (.extNotModelled "comparison on non-numeric operands")

/-- Fold of Python's `max` over numbers. -/
def pyMaxFold (cur : Value) : List Value → Except Err Value
  | [] => .ok cur
  | x :: xs =>
      match numView cur, numView x with
      | some a, some b => pyMaxFold (if toQ a < toQ b then x else cur) xs
      | _, _ => .error (.extNotModelled "comparison on non-numeric operands")

/-- `UTIL_FUNCS['min'] = lambda *xs: min(xs)`: the built-in `min` of the
argument tuple; empty raises `ValueError("min() arg is an empty sequence")`. -/
def pyMin (args : List Value) (kwargs : List (String × Value)) : Except Err Value :=
  if !kwargs.isEmpty then .error (.typeError "min takes no keyword arguments")
  else match args with
  | [] => .error (.domainError "min arg is an empty sequence")
  | v :: vs => pyMinFold v vs

/-- `UTIL_FUNCS['max'] = lambda *xs: max(xs)`. -/
def pyMax (args : List Value) (kwargs : List (String × Value)) : Except Err Value :=
  if !kwargs.isEmpty then .error (.typeError "max takes no keyword arguments")
  else match args with
  | [] => .error (.domainError "max arg is an empty sequence")
  | v :: vs => pyMaxFold v vs

/-- Bind the two parameters of `lambda a, b`, from positional arguments and
then keyword arguments in the call shapes the grammar can produce. -/
def bindPct (args : List Value) (kwargs : List (String × Value)) : Except Err (Value × Value) :=
  match args, kwargs with
  | [x, y], [] => .ok (x, y)
  | [x], [(k, y)] =>
      if k = "b" then .ok (x, y) else .error (.typeError "unexpected keyword argument")
  | [], [(k1, x), (k2, y)] =>
      if k1 = "a" ∧ k2 = "b" then .ok (x, y)
      else if k1 = "b" ∧ k2 = "a" then .ok (y, x)
      else .error (.typeError "unexpected keyword argument")
  | _, _ => .error (.typeError "pct takes exactly two arguments")

/-- `UTIL_FUNCS['pct'] = lambda a, b: a * b / 100.0`. -/
def pyPct (args : List Value) (kwargs : List (String × Value)) : Except Err Value := do
  let (a, b) ← bindPct args kwargs
  let p ← binOpVal .mult a b
  binOpVal .div p (.real 100)

/-- Invoke a resolved built-in callable on evaluated positional and keyword
arguments.  The abstract `math`/`cmath` functions are not modelled (their
floating-point results are not exactly representable); no claim calls them. -/
def applyFn : Fn → List Value → List (String × Value) → Except Err Value
  | .factorial, args, kwargs => pyFactorial args kwargs
  | .gcd, args, kwargs => pyGcd args kwargs
  | .avg, args, kwargs => pyAvg args kwargs
  | .sum, args, kwargs => pySum args kwargs
  | .min, args, kwargs => pyMin args kwargs
  | .max, args, kwargs => pyMax args kwargs
  | .pct, args, kwargs => pyPct args kwargs
  | .extFn name, _, _ => .error (.extNotModelled name)

/-- `MATH_FUNCS`: the real-valued `math` functions, in source order;
`factorial` and `gcd` are modelled, the rest are abstract. -/
def MATH_FUNCS : List (String × Value) :=
  [("sin", .func (.extFn "sin")), ("cos", .func (.extFn "cos")),
   ("tan", .func (.extFn "tan")), ("asin", .func (.extFn "asin")),
   ("acos", .func (.extFn "acos")), ("atan", .func (.extFn "atan")),
   ("log", .func (.extFn "log")), ("ln", .func (.extFn "log")),
   ("log10", .func (.extFn "log10")), ("sqrt", .func (.extFn "sqrt")),
   ("exp", .func (.extFn "exp")), ("factorial", .func .factorial),
   ("degrees", .func (.extFn "degrees")), ("radians", .func (.extFn "radians")),
   ("comb", .func (.extFn "comb")), ("perm", .func (.extFn "perm")),
   ("gcd", .func .gcd), ("lcm", .func (.extFn "lcm")),
   ("hypot", .func (.extFn "hypot"))]

/-- `C_MATH_FUNCS`: the complex-capable `cmath` functions, all abstract. -/
def C_MATH_FUNCS : List (String × Value) :=
  [("c_sin", .func (.extFn "c_sin")), ("c_cos", .func (.extFn "c_cos")),
   ("c_tan", .func (.extFn "c_tan")), ("c_log", .func (.extFn "c_log")),
   ("c_sqrt", .func (.extFn "c_sqrt")), ("c_exp", .func (.extFn "c_exp")),
   ("c_phase", .func (.extFn "c_phase")), ("c_polar", .func (.extFn "c_polar")),
   ("c_rect", .func (.extFn "c_rect"))]

/-- `UTIL_FUNCS`. -/
def UTIL_FUNCS : List (String × Value) :=
  [("avg", .func .avg), ("sum", .func .sum), ("min", .func .min),
   ("max", .func .max), ("pct", .func .pct)]

/-- `CONSTANTS`: `pi`, `e`, `tau` are irrational doubles kept abstract;
`inf` and `nan` are the float special values. -/
def CONSTANTS : List (String × Value) :=
  [("pi", .extReal "pi"), ("e", .extReal "e"), ("tau", .extReal "tau"),
   ("inf", .inf true), ("nan", .nan)]

/-- `ALLOWED_GLOBALS`: the four dictionaries merged in source order (their key
sets are disjoint, so `dict.update` is concatenation). -/
def ALLOWED_GLOBALS : List (String × Value) :=
  MATH_FUNCS ++ C_MATH_FUNCS ++ UTIL_FUNCS ++ CONSTANTS

/-- The value of a `Constant` literal node (`_eval`'s `Num`/`Constant`
branches). -/
def constValue : Const → Value
  | .int n => .int n
  | .real q => .real q
  | .bool b => .bool b
  | .str s => .str s
  | .none => .none

mutual

/-- `SafeEvaluator._eval`: recursive evaluation of an already-validated node
against the session variables (`self.vars`) and `ALLOWED_GLOBALS`.  A `Name`
is resolved in the variables first, globals second, else `NameError`; a `Call`
evaluates the callee, checks `callable`, then evaluates positional and keyword
arguments left to right and invokes; a node kind without a branch raises
`ValueError("Unsupported node: ...")`. -/
def evalNode (vars : List (String × Value)) : PyExpr → Except Err Value
  | .const c => .ok (constValue c)
  | .name s =>
      match vars.lookup s with
      | some v => .ok v
      | Option.none =>
          match ALLOWED_GLOBALS.lookup s with
          | some v => .ok v
          | Option.none => .error (.nameError s)
  | .binOp l op r => do
      let lv ← evalNode vars l
      let rv ← evalNode vars r
      binOpVal op lv rv
  | .unaryOp op e => do
      let v ← evalNode vars e
      unaryVal op v
  | .tuple elts => do
      let vs ← evalArgs vars elts
      pure (.tuple vs)
  | .list elts => do
      let vs ← evalArgs vars elts
      pure (.list vs)
  | .call f args kws => do
      let fv ← evalNode vars f
      match fv with
      | .func fn => do
          let vs ← evalArgs vars args
          let ks ← evalKwArgs vars kws
          applyFn fn vs ks
      | _ => .error .notCallable
  | .attr _ _ => .error (.unsupportedNode "Attribute")
  | .subscript _ _ => .error (.unsupportedNode "Subscript")
  | .lam _ _ => .error (.unsupportedNode "Lambda")
  | .namedExpr _ _ => .error (.unsupportedNode "NamedExpr")
  | .compare _ _ => .error (.unsupportedNode "Compare")
  | .boolOp _ _ => .error (.unsupportedNode "BoolOp")
  | .ifExp _ _ _ => .error (.unsupportedNode "IfExp")
  | .listComp _ _ => .error (.unsupportedNode "ListComp")
  | .dict _ _ => .error (.unsupportedNode "Dict")
  | .starred _ => .error (.unsupportedNode "Starred")

/-- Left-to-right evaluation of an expression list (`Call` arguments,
`Tuple`/`List` elements). -/
def evalArgs (vars : List (String × Value)) : List PyExpr → Except Err (List Value)
  | [] => .ok []
  | e :: es => do
      let v ← evalNode vars e
      let vs ← evalArgs vars es
      pure (v :: vs)

/-- Left-to-right evaluation of keyword arguments. -/
def evalKwArgs (vars : List (String × Value)) : List (String × PyExpr) → Except Err (List (String × Value))
  | [] => .ok []
  | (k, e) :: kws => do
      let v ← evalNode vars e
      let vs ← evalKwArgs vars kws
      pure ((k, v) :: vs)

end

/-- `SafeEvaluator.eval_expr` on an already-parsed tree: `_check_node` runs on
the whole `Expression` wrapper (whose own class is allow-listed, so the walk
reduces to its body) before `_eval` touches any node. -/
def evalExprTree (vars : List (String × Value)) (body : PyExpr) : Except Err Value := do
  checkNode body
  evalNode vars body


/-! ### Parsing

`ast.parse(expr, mode='eval')` is the Python standard library parser, not code
of this repository.  Modelled from the spec: a tokenizer and a
precedence-climbing parser implementing the spec grammar — unary `+`/`-`
highest, then `**` right-associative (binding looser than a unary operator on
its right, tighter on its left), then `*` `/` `//` `%` left-associative, then
binary `+` `-` left-associative; parentheses; function calls with positional
and `k=v` keyword arguments; integer, float and single-quoted string literals;
top-level comma tuples. -/

/-- Tokens of the expression grammar. -/
inductive Tok where
  | num (n : Int)
  | flt (q : ℚ)
  | strTok (s : String)
  | ident (s : String)
  | lparen
  | rparen
  | comma
  | eqTok
  | plus
  | minus
  | star
  | slash
  | dstar
  | dslash
  | percent
deriving DecidableEq, Repr

/-- The single-quote character. -/
def squote : Char := Char.ofNat 39

/-- Identifier start: letter or underscore (ASCII model of
`str.isidentifier`). -/
def isIdentStart (c : Char) : Bool :=
  c.isAlpha || c = '_'

/-- Identifier continuation: letter, digit or underscore. -/
def isIdentChar (c : Char) : Bool :=
  c.isAlphanum || c = '_'

/-- Split a leading run of characters satisfying `p` from the rest. -/
def readWhile (p : Char → Bool) : List Char → List Char × List Char
  | [] => ([], [])
  | c :: cs =>
      if p c then
        let (tk, rest) := readWhile p cs
        (c :: tk, rest)
      else ([], c :: cs)

/-- Numeric value of a digit run. -/
def digitsVal (ds : List Char) : Nat :=
  ds.foldl (fun acc c => 10 * acc + (c.toNat - 48)) 0

/-- Rational value of `ds.fs` (integer digits, fraction digits). -/
def ratOfDigits (ds fs : List Char) : ℚ :=
  (digitsVal ds : ℚ) + (digitsVal fs : ℚ) / ((10 : ℚ) ^ fs.length)

/-- Read a single-quoted string body; fails on an unterminated literal. -/
def readStr : List Char → Except Err (List Char × List Char)
  | [] => .error (.parseError "unterminated string literal")
  | c :: cs =>
      if c = squote then .ok ([], cs)
      else do
        let (body, rest) ← readStr cs
        pure (c :: body, rest)

/-- Tokenizer (fuel-indexed; fuel one beyond the character count always
suffices since every step consumes at least one character). -/
def tokenize (fuel : Nat) (cs : List Char) : Except Err (List Tok) :=
  match fuel with
  | 0 => .error (.parseError "tokenizer fuel exhausted")
  | fuel + 1 =>
      match cs with
      | [] => .ok []
      | c :: cs' =>
          if c = ' ' || c = '\t' then tokenize fuel cs'
          else if c.isDigit then
            let (ds, rest) := readWhile Char.isDigit (c :: cs')
            match rest with
            | '.' :: rest2 =>
                let (fs, rest3) := readWhile Char.isDigit rest2
                do
                  let ts ← tokenize fuel rest3
                  pure (.flt (ratOfDigits ds fs) :: ts)
            | _ => do
                let ts ← tokenize fuel rest
                pure (.num (digitsVal ds) :: ts)
          else if isIdentStart c then
            let (id, rest) := readWhile isIdentChar (c :: cs')
            do
              let ts ← tokenize fuel rest
              pure (.ident (String.mk id) :: ts)
          else if c = squote then do
            let (body, rest) ← readStr cs'
            let ts ← tokenize fuel rest
            pure (.strTok (String.mk body) :: ts)
          else if c = '*' then
            match cs' with
            | '*' :: rest => do
                let ts ← tokenize fuel rest
                pure (.dstar :: ts)
            | _ => do
                let ts ← tokenize fuel cs'
                pure (.star :: ts)
          else if c = '/' then
            match cs' with
            | '/' :: rest => do
                let ts ← tokenize fuel rest
                pure (.dslash :: ts)
            | _ => do
                let ts ← tokenize fuel cs'
                pure (.slash :: ts)
          else if c = '+' then do
            let ts ← tokenize fuel cs'
            pure (.plus :: ts)
          else if c = '-' then do
            let ts ← tokenize fuel cs'
            pure (.minus :: ts)
          else if c = '%' then do
            let ts ← tokenize fuel cs'
            pure (.percent :: ts)
          else if c = '(' then do
            let ts ← tokenize fuel cs'
            pure (.lparen :: ts)
          else if c = ')' then do
            let ts ← tokenize fuel cs'
            pure (.rparen :: ts)
          else if c = ',' then do
            let ts ← tokenize fuel cs'
            pure (.comma :: ts)
          else if c = '=' then do
            let ts ← tokenize fuel cs'
            pure (.eqTok :: ts)
          else .error (.parseError "unexpected character")

mutual

/-- `+`/`-` level, left-associative (lowest precedence). -/
def parseAddSub : Nat → List Tok → Except Err (PyExpr × List Tok)
  | 0, _ => .error (.parseError "parser fuel exhausted")
  | fuel + 1, ts => do
      let (l, ts) ← parseMulDiv fuel ts
      parseAddSubRest fuel l ts

/-- Trailing `+`/`-` chain. -/
def parseAddSubRest : Nat → PyExpr → List Tok → Except Err (PyExpr × List Tok)
  | 0, _, _ => .error (.parseError "parser fuel exhausted")
  | fuel + 1, l, .plus :: ts => do
      let (r, ts) ← parseMulDiv fuel ts
      parseAddSubRest fuel (.binOp l .add r) ts
  | fuel + 1, l, .minus :: ts => do
      let (r, ts) ← parseMulDiv fuel ts
      parseAddSubRest fuel (.binOp l .sub r) ts
  | _ + 1, l, ts => .ok (l, ts)

/-- `*` `/` `//` `%` level, left-associative. -/
def parseMulDiv : Nat → List Tok → Except Err (PyExpr × List Tok)
  | 0, _ => .error (.parseError "parser fuel exhausted")
  | fuel + 1, ts => do
      let (l, ts) ← parseUnary fuel ts
      parseMulDivRest fuel l ts

/-- Trailing `*` `/` `//` `%` chain. -/
def parseMulDivRest : Nat → PyExpr → List Tok → Except Err (PyExpr × List Tok)
  | 0, _, _ => .error (.parseError "parser fuel exhausted")
  | fuel + 1, l, .star :: ts => do
      let (r, ts) ← parseUnary fuel ts
      parseMulDivRest fuel (.binOp l .mult r) ts
  | fuel + 1, l, .slash :: ts => do
      let (r, ts) ← parseUnary fuel ts
      parseMulDivRest fuel (.binOp l .div r) ts
  | fuel + 1, l, .dslash :: ts => do
      let (r, ts) ← parseUnary fuel ts
      parseMulDivRest fuel (.binOp l .floorDiv r) ts
  | fuel + 1, l, .percent :: ts => do
      let (r, ts) ← parseUnary fuel ts
      parseMulDivRest fuel (.binOp l .mod r) ts
  | _ + 1, l, ts => .ok (l, ts)

/-- Unary `+`/`-` (tighter than `*`-level, looser than `**` on its left). -/
def parseUnary : Nat → List Tok → Except Err (PyExpr × List Tok)
  | 0, _ => .error (.parseError "parser fuel exhausted")
  | fuel + 1, .plus :: ts => do
      let (e, ts) ← parseUnary fuel ts
      pure (.unaryOp .uadd e, ts)
  | fuel + 1, .minus :: ts => do
      let (e, ts) ← parseUnary fuel ts
      pure (.unaryOp .usub e, ts)
  | fuel + 1, ts => parsePow fuel ts

/-- `**`, right-associative, whose right operand may start with a unary
operator. -/
def parsePow : Nat → List Tok → Except Err (PyExpr × List Tok)
  | 0, _ => .error (.parseError "parser fuel exhausted")
  | fuel + 1, ts => do
      let (b, ts) ← parsePostfix fuel ts
      match ts with
      | .dstar :: ts => do
          let (e, ts) ← parseUnary fuel ts
          pure (.binOp b .pow e, ts)
      | _ => .ok (b, ts)

/-- An atom followed by call suffixes. -/
def parsePostfix : Nat → List Tok → Except Err (PyExpr × List Tok)
  | 0, _ => .error (.parseError "parser fuel exhausted")
  | fuel + 1, ts => do
      let (a, ts) ← parseAtom fuel ts
      parseCallSuffix fuel a ts

/-- Zero or more `(...)` call suffixes. -/
def parseCallSuffix : Nat → PyExpr → List Tok → Except Err (PyExpr × List Tok)
  | 0, _, _ => .error (.parseError "parser fuel exhausted")
  | fuel + 1, a, .lparen :: ts => do
      let (args, kwargs, ts) ← parseArgs fuel ts
      parseCallSuffix fuel (.call a args kwargs) ts
  | _ + 1, a, ts => .ok (a, ts)

/-- Literal, identifier, or parenthesized expression. -/
def parseAtom : Nat → List Tok → Except Err (PyExpr × List Tok)
  | 0, _ => .error (.parseError "parser fuel exhausted")
  | _ + 1, .num n :: ts => .ok (.const (.int n), ts)
  | _ + 1, .flt q :: ts => .ok (.const (.real q), ts)
  | _ + 1, .strTok s :: ts => .ok (.const (.str s), ts)
  | _ + 1, .ident s :: ts => .ok (.name s, ts)
  | fuel + 1, .lparen :: ts => do
      let (e, ts) ← parseAddSub fuel ts
      match ts with
      | .rparen :: ts => .ok (e, ts)
      | _ => .error (.parseError "expected closing parenthesis")
  | _ + 1, _ => .error (.parseError "unexpected token")

/-- Call argument list up to and including the closing parenthesis. -/
def parseArgs : Nat → List Tok → Except Err (List PyExpr × List (String × PyExpr) × List Tok)
  | 0, _ => .error (.parseError "parser fuel exhausted")
  | _ + 1, .rparen :: ts => .ok ([], [], ts)
  | fuel + 1, ts => parseArgItem fuel ts

/-- One argument (a `k=v` keyword argument or a positional expression) and the
rest of the list; positional arguments may not follow a keyword argument. -/
def parseArgItem : Nat → List Tok → Except Err (List PyExpr × List (String × PyExpr) × List Tok)
  | 0, _ => .error (.parseError "parser fuel exhausted")
  | fuel + 1, .ident k :: .eqTok :: ts => do
      let (e, ts) ← parseAddSub fuel ts
      let (args, kwargs, ts) ← parseArgTail fuel ts
      if args.isEmpty then pure ([], (k, e) :: kwargs, ts)
      else .error (.parseError "positional argument follows keyword argument")
  | fuel + 1, ts => do
      let (e, ts) ← parseAddSub fuel ts
      let (args, kwargs, ts) ← parseArgTail fuel ts
      pure (e :: args, kwargs, ts)

/-- After an argument: a comma continues the list, a closing parenthesis ends
it. -/
def parseArgTail : Nat → List Tok → Except Err (List PyExpr × List (String × PyExpr) × List Tok)
  | 0, _ => .error (.parseError "parser fuel exhausted")
  | _ + 1, .rparen :: ts => .ok ([], [], ts)
  | fuel + 1, .comma :: ts => parseArgItem fuel ts
  | _ + 1, _ => .error (.parseError "expected comma or closing parenthesis")

end

/-- Top level: an expression, or a comma-separated tuple display. -/
def parseTop (fuel : Nat) (ts : List Tok) : Except Err (PyExpr × List Tok) := do
  let (e, ts) ← parseAddSub fuel ts
  match ts with
  | .comma :: _ => parseTupleRest fuel [e] ts
  | _ => .ok (e, ts)
where
  /-- Collect further tuple elements. -/
  parseTupleRest : Nat → List PyExpr → List Tok → Except Err (PyExpr × List Tok)
    | 0, _, _ => .error (.parseError "parser fuel exhausted")
    | fuel + 1, acc, .comma :: ts => do
        let (e, ts) ← parseAddSub fuel ts
        parseTupleRest fuel (acc ++ [e]) ts
    | _ + 1, acc, ts => .ok (.tuple acc, ts)

/-- `ast.parse(text, mode='eval')`, modelled from the spec grammar: tokenize,
parse, and require that all input is consumed. -/
def parseExpr (s : String) : Except Err PyExpr := do
  let ts ← tokenize (s.length + 1) s.toList
  let (e, rest) ← parseTop (16 * (ts.length + 1)) ts
  match rest with
  | [] => pure e
  | _ => .error (.parseError "unexpected trailing tokens")

/-- `SafeEvaluator.eval_expr`: parse (a `SyntaxError` becomes
`ValueError("Syntax error: ...")`), validate the whole tree with
`_check_node`, then evaluate with `_eval`. -/
def eval_expr (vars : List (String × Value)) (s : String) : Except Err Value := do
  let t ← parseExpr s
  checkNode t
  evalNode vars t

/-! ### Session wrapper (`Calculator`) -/

/-- One history entry (`EvalResult` dataclass). -/
structure EvalResult where
  expr : String
  value : Value
  is_assignment : Bool

/-- A calculator session: the evaluator's variables dictionary and the
history list. -/
structure CalcState where
  vars : List (String × Value)
  history : List EvalResult

/-- The empty session (`Calculator.__init__`). -/
def CalcState.initial : CalcState :=
  { vars := [], history := [] }

/-- ASCII model of `str.isidentifier`: nonempty, a letter or underscore
first, letters/digits/underscores thereafter. -/
def isPyIdentifier (s : String) : Bool :=
  match s.toList with
  | [] => false
  | c :: cs => isIdentStart c && cs.all isIdentChar

/-- Python dictionary assignment `d[k] = v` on an association list: replace
the value in place if the key exists, else append. -/
def setVar : List (String × Value) → String → Value → List (String × Value)
  | [], n, v => [(n, v)]
  | (k, w) :: rest, n, v =>
      if k = n then (k, v) :: rest else (k, w) :: setVar rest n v

/-- `Calculator.assign`: strip the name, validate it is an identifier,
evaluate the expression, and only then store the value and append the
assignment-flagged result to the history.  The state component of the result
is the session after the call: unchanged whenever a failure occurs. -/
def Calculator.assign (st : CalcState) (name expr : String) :
    Except Err EvalResult × CalcState :=
  let name := name.trim
  if !isPyIdentifier name then (.error .invalidName, st)
  else
    match eval_expr st.vars expr with
    | .error e => (.error e, st)
    | .ok v =>
        let res : EvalResult := ⟨name ++ " = " ++ expr, v, true⟩
        (.ok res, ⟨setVar st.vars name v, st.history ++ [res]⟩)

/-- `Calculator.evaluate`: evaluate the expression and only then append the
result to the history. -/
def Calculator.evaluate (st : CalcState) (expr : String) :
    Except Err EvalResult × CalcState :=
  match eval_expr st.vars expr with
  | .error e => (.error e, st)
  | .ok v =>
      let res : EvalResult := ⟨expr, v, false⟩
      (.ok res, ⟨st.vars, st.history ++ [res]⟩)

/-! ### Session persistence (`Calculator.save` / `Calculator.load`)

`json.dump(..., default=str)` / `json.load` model: values are serialized to a
JSON tree.  An `int` and a `float` keep their numeric form (`json.load`
restores `int` for integer literals and `float` otherwise; `nan`/`inf` use
the `NaN`/`Infinity` literals, and the exact double of an abstract constant is
the `jext` node); a tuple is serialized as a JSON array, so loading it yields
a Python *list*; a callable is not JSON-serializable, so `default=str` turns
it into its string representation. -/

/-- JSON trees. -/
inductive Json where
  | null
  | jbool (b : Bool)
  | jint (n : Int)
  | jfloat (q : ℚ)
  | jnan
  | jinf (pos : Bool)
  | jext (name : String)
  | jstr (s : String)
  | arr (xs : List Json)
  | obj (kvs : List (String × Json))

/-- `str(f)` of a built-in callable (`default=str` fallback). -/
def funcRepr (f : Fn) : String :=
  match f with
  | .extFn name => "built-in function " ++ name
  | _ => "function Calculator util"

mutual

/-- Serialization of a value by `json.dump(..., default=str)`. -/
def toJson : Value → Json
  | .int n => .jint n
  | .real q => .jfloat q
  | .bool b => .jbool b
  | .str s => .jstr s
  | .none => .null
  | .nan => .jnan
  | .inf p => .jinf p
  | .extReal s => .jext s
  | .tuple xs => .arr (toJsonList xs)
  | .list xs => .arr (toJsonList xs)
  | .func f => .jstr (funcRepr f)

/-- `toJson` over a list of values. -/
def toJsonList : List Value → List Json
  | [] => []
  | v :: vs => toJson v :: toJsonList vs

end

mutual

/-- The value `json.load` restores from a JSON tree: arrays always come back
as Python lists.  Nested objects never occur in saved sessions and are not
modelled. -/
def fromJson : Json → Except Err Value
  | .null => .ok .none
  | .jbool b => .ok (.bool b)
  | .jint n => .ok (.int n)
  | .jfloat q => .ok (.real q)
  | .jnan => .ok .nan
  | .jinf p => .ok (.inf p)
  | .jext s => .ok (.extReal s)
  | .jstr s => .ok (.str s)
  | .arr xs => do
      let vs ← fromJsonList xs
      pure (.list vs)
  | .obj _ => .error (.extNotModelled "nested json object value")

/-- `fromJson` over an array. -/
def fromJsonList : List Json → Except Err (List Value)
  | [] => .ok []
  | x :: xs => do
      let v ← fromJson x
      let vs ← fromJsonList xs
      pure (v :: vs)

end

/-- A history entry as saved: the `(expr, value, is_assignment)` triple
becomes a JSON array. -/
def encodeResult (h : EvalResult) : Json :=
  .arr [.jstr h.expr, toJson h.value, .jbool h.is_assignment]

/-- Unpacking `EvalResult(expr=e, value=v, is_assignment=b) for e, v, b in
data.get('history', [])`. -/
def decodeResult : Json → Except Err EvalResult
  | .arr [.jstr e, v, .jbool b] => do
      let w ← fromJson v
      pure ⟨e, w, b⟩
  | _ => .error (.typeError "malformed history entry")

/-- `Calculator.save`: the session as the JSON record
`{'variables': ..., 'history': ...}`. -/
def saveSession (st : CalcState) : Json :=
  .obj [("variables", .obj (st.vars.map (fun p => (p.1, toJson p.2)))),
        ("history", .arr (st.history.map encodeResult))]

/-- `data.get(key, dflt)` on the loaded record. -/
def objGet (j : Json) (key : String) (dflt : Json) : Json :=
  match j with
  | .obj kvs => (kvs.lookup key).getD dflt
  | _ => dflt

/-- The variables mapping read back by `Calculator.load`. -/
def decodeVars : Json → Except Err (List (String × Value))
  | .obj kvs => kvs.mapM (fun p => do
      let v ← fromJson p.2
      pure (p.1, v))
  | _ => .error (.typeError "variables must be an object")

/-- The history read back by `Calculator.load`. -/
def decodeHist : Json → Except Err (List EvalResult)
  | .arr xs => xs.mapM decodeResult
  | _ => .error (.typeError "history must be an array")

/-- `Calculator.load`: decode the record and replace the whole in-memory
variables mapping and history; the prior session state is discarded, not
merged (the source assigns `self.evaluator.vars` and `self.history`
wholesale). -/
def loadSession (_prior : CalcState) (j : Json) : Except Err CalcState := do
  let vars ← decodeVars (objGet j "variables" (.obj []))
  let hist ← decodeHist (objGet j "history" (.arr []))
  pure ⟨vars, hist⟩

/-- Specification-side reading of validation: scan a kind list and fail on
the first kind outside the allow-list. -/
def kindsCheck (ks : List String) : Except Err Unit :=
  match ks.find? (fun k => !isAllowedKind k) with
  | some k => .error (.rejected k)
  | Option.none => .ok ()

theorem kindsCheck_cons (k : String) (ks : List String) :
    kindsCheck (k :: ks) =
      if isAllowedKind k then kindsCheck ks else .error (.rejected k) := by
  by_cases h : isAllowedKind k
  · simp [kindsCheck, List.find?_cons, h]
  · simp [kindsCheck, List.find?_cons, h]

theorem kindsCheck_append (xs ys : List String) :
    kindsCheck (xs ++ ys) = kindsCheck xs >>= fun _ => kindsCheck ys := by
  induction xs with
  | nil => rfl
  | cons k ks ih =>
      by_cases h : isAllowedKind k
      · simp [kindsCheck_cons, h, ih]
      · simp [kindsCheck_cons, h]
        rfl

theorem kindsCheck_cons_allowed {k : String} (ks : List String)
    (h : isAllowedKind k = true) : kindsCheck (k :: ks) = kindsCheck ks := by
  rw [kindsCheck_cons, if_pos h]

theorem kindsCheck_cons_rejected {k : String} (ks : List String)
    (h : isAllowedKind k = false) :
    kindsCheck (k :: ks) = .error (.rejected k) := by
  rw [kindsCheck_cons, if_neg]
  simp [h]

theorem bind_ok_unit (x : Except Err Unit) :
    (x >>= fun _ => Except.ok ()) = x := by
  cases x <;> rfl

theorem kindsCheck_single (k : String) :
    kindsCheck [k] = if isAllowedKind k then Except.ok () else .error (.rejected k) := by
  rw [kindsCheck_cons]
  cases isAllowedKind k <;> rfl

mutual

theorem checkNode_eq : (t : PyExpr) → checkNode t = kindsCheck (preKinds t)
  | .const _ => rfl
  | .name _ => rfl
  | .binOp l op r => by
      have hl := checkNode_eq l
      have hr := checkNode_eq r
      simp only [checkNode, preKinds]
      rw [kindsCheck_cons_allowed _ (by decide), kindsCheck_append,
        kindsCheck_append, hl, hr, bind_assoc]
      congr 1
      funext u
      rw [kindsCheck_single]
      by_cases hop : isAllowedKind op.kindName
      · rw [if_pos hop, if_pos hop]
        rfl
      · rw [if_neg hop, if_neg hop]
  | .unaryOp op e => by
      have he := checkNode_eq e
      simp only [checkNode, preKinds]
      rw [kindsCheck_cons_allowed _ (by decide), kindsCheck_cons, he]
      by_cases hop : isAllowedKind op.kindName
      · rw [if_pos hop, if_pos hop]
        rfl
      · rw [if_neg hop, if_neg hop]
        rfl
  | .call f args kws => by
      have hf := checkNode_eq f
      have ha := checkList_eq args
      have hk := checkKwList_eq kws
      simp only [checkNode, preKinds]
      rw [kindsCheck_cons_allowed _ (by decide), kindsCheck_append,
        kindsCheck_append, hf, ha, hk]
      cases kindsCheck (preKinds f) with
      | error e => rfl
      | ok u =>
          cases u
          cases kindsCheck (preKindsList args) <;> rfl
  | .tuple elts => by
      have ha := checkList_eq elts
      simp only [checkNode, preKinds]
      rw [kindsCheck_cons_allowed _ (by decide), kindsCheck_append, ha,
        show kindsCheck ["Load"] = .ok () from rfl, bind_ok_unit]
  | .list elts => by
      have ha := checkList_eq elts
      simp only [checkNode, preKinds]
      rw [kindsCheck_cons_allowed _ (by decide), kindsCheck_append, ha,
        show kindsCheck ["Load"] = .ok () from rfl, bind_ok_unit]
  | .attr _ _ => by
      simp only [checkNode, preKinds]
      rw [kindsCheck_cons_rejected _ (by decide)]
  | .subscript _ _ => by
      simp only [checkNode, preKinds]
      rw [kindsCheck_cons_rejected _ (by decide)]
  | .lam _ _ => by
      simp only [checkNode, preKinds]
      rw [kindsCheck_cons_rejected _ (by decide)]
  | .namedExpr _ _ => by
      simp only [checkNode, preKinds]
      rw [kindsCheck_cons_rejected _ (by decide)]
  | .compare _ _ => by
      simp only [checkNode, preKinds]
      rw [kindsCheck_cons_rejected _ (by decide)]
  | .boolOp _ _ => by
      simp only [checkNode, preKinds]
      rw [kindsCheck_cons_rejected _ (by decide)]
  | .ifExp _ _ _ => by
      simp only [checkNode, preKinds]
      rw [kindsCheck_cons_rejected _ (by decide)]
  | .listComp _ _ => by
      simp only [checkNode, preKinds]
      rw [kindsCheck_cons_rejected _ (by decide)]
  | .dict _ _ => by
      simp only [checkNode, preKinds]
      rw [kindsCheck_cons_rejected _ (by decide)]
  | .starred _ => by
      simp only [checkNode, preKinds]
      rw [kindsCheck_cons_rejected _ (by decide)]

theorem checkList_eq : (es : List PyExpr) → checkList es = kindsCheck (preKindsList es)
  | [] => rfl
  | e :: es => by
      have he := checkNode_eq e
      have hes := checkList_eq es
      simp only [checkList, preKindsList]
      rw [kindsCheck_append, he, hes]

theorem checkKwList_eq : (kws : List (String × PyExpr)) → checkKwList kws = kindsCheck (preKindsKw kws)
  | [] => rfl
  | (k, e) :: kws => by
      simp only [checkKwList, preKindsKw]
      rw [kindsCheck_cons_rejected _ (by decide)]

end

/-- If the pre-order kind walk of a tree contains a disallowed kind, the
validation walk fails with `RejectedSyntax` naming the first such kind. -/
theorem checkNode_err_of_find {t : PyExpr} {k : String}
    (h : (preKinds t).find? (fun s => !isAllowedKind s) = some k) :
    checkNode t = .error (.rejected k) := by
  rw [checkNode_eq, kindsCheck, h]

/-- If every reachable kind is allow-listed, the validation walk succeeds. -/
theorem checkNode_ok_of_find_none {t : PyExpr}
    (h : (preKinds t).find? (fun s => !isAllowedKind s) = Option.none) :
    checkNode t = .ok () := by
  rw [checkNode_eq, kindsCheck, h]

/-- `eval_expr` on a tree whose validation fails propagates the validation
failure, never reaching `_eval`. -/
theorem evalExprTree_err_of_check {vars : List (String × Value)} {t : PyExpr}
    {e : Err} (h : checkNode t = .error e) :
    evalExprTree vars t = .error e := by
  simp only [evalExprTree, h]
  rfl

/-- C1.  For every expression tree containing anywhere — including nested
inside an allowed node — a syntax-node kind outside the fixed allow-list,
`eval_expr` rejects the whole expression with `RejectedSyntax` naming the
first such kind in the full pre-order traversal, which runs before any
sub-expression is evaluated (`eval_expr` sequences `_check_node` strictly
before `_eval`); and when no disallowed kind occurs the validation walk
accepts. -/
theorem eval_rejects_disallowed_node_preorder
    (vars : List (String × Value)) (t : PyExpr) :
    (∀ k, (preKinds t).find? (fun s => !isAllowedKind s) = some k →
       checkNode t = .error (.rejected k) ∧
       evalExprTree vars t = .error (.rejected k)) ∧
    ((preKinds t).find? (fun s => !isAllowedKind s) = Option.none →
       checkNode t = .ok ()) := by
  refine ⟨fun k h => ?_, fun h => checkNode_ok_of_find_none h⟩
  have hc := checkNode_err_of_find h
  exact ⟨hc, evalExprTree_err_of_check hc⟩

/-- Witness for C1: a `1 .imag` attribute access nested under an allowed
unary node is rejected with its kind, before evaluation. -/
theorem eval_rejects_disallowed_node_preorder_witness :
    checkNode (.unaryOp .usub (.attr (.const (.int 1)) "imag")) =
      .error (.rejected "Attribute") ∧
    evalExprTree [] (.unaryOp .usub (.attr (.const (.int 1)) "imag")) =
      .error (.rejected "Attribute") :=
  (eval_rejects_disallowed_node_preorder []
    (.unaryOp .usub (.attr (.const (.int 1)) "imag"))).1 "Attribute" (by decide)

/-- The expression string `__import__('os')`. -/
def importOsString : String :=
  "__import__(" ++ String.mk [squote] ++ "os" ++ String.mk [squote] ++ ")"

/-- The tree `ast.parse` produces for `__import__('os')`: a `Call` of the
`Name` with a string `Constant` argument — every node allow-listed. -/
def importOsTree : PyExpr :=
  .call (.name "__import__") [.const (.str "os")] []

/-- Counterexample to C2 as stated: `__import__('os')` does NOT fail with
`RejectedSyntax` — every node of its tree (`Call`, `Name`, `Load`,
`Constant`) is allow-listed, so validation accepts it; the failure is the
evaluation-stage `NameError` for `__import__`, which is absent from
`ALLOWED_GLOBALS` (so the input is still never executed). -/
theorem import_os_fails_with_name_error_not_rejected :
    parseExpr importOsString = .ok importOsTree ∧
    checkNode importOsTree = .ok () ∧
    eval_expr [] importOsString = .error (.nameError "__import__") ∧
    Err.isRejected (.nameError "__import__") = false :=
  ⟨rfl, rfl, rfl, rfl⟩

/-- C2 (amended).  Validation rejects every expression containing
assignment-as-expression, attribute access, subscripting, lambda, or a
comprehension (all their node kinds are outside the allow-list, so the whole
expression is rejected with some disallowed kind); but a string literal is an
allow-listed `Constant`, so `"__import__('os')"` passes validation and
instead fails at name resolution with `NameError`, never executed. -/
theorem validate_rejects_constructs_strings_pass
    (vars : List (String × Value)) (t : PyExpr) :
    (∀ k, k ∈ preKinds t → isAllowedKind k = false →
       ∃ k2, isAllowedKind k2 = false ∧
         evalExprTree vars t = .error (.rejected k2)) ∧
    checkNode (.namedExpr "x" (.const (.int 1))) = .error (.rejected "NamedExpr") ∧
    checkNode (.attr (.name "a") "b") = .error (.rejected "Attribute") ∧
    checkNode (.subscript (.name "a") (.const (.int 0))) = .error (.rejected "Subscript") ∧
    checkNode (.lam ["x"] (.const (.int 1))) = .error (.rejected "Lambda") ∧
    checkNode (.listComp (.name "x") (.name "y")) = .error (.rejected "ListComp") ∧
    checkNode (.const (.str "os")) = .ok () ∧
    eval_expr [] importOsString = .error (.nameError "__import__") := by
  refine ⟨fun k hmem hbad => ?_, rfl, rfl, rfl, rfl, rfl, rfl, rfl⟩
  have hsome : ((preKinds t).find? (fun s => !isAllowedKind s)).isSome := by
    rw [List.find?_isSome]
    exact ⟨k, hmem, by simp [hbad]⟩
  obtain ⟨k2, hk2⟩ := Option.isSome_iff_exists.mp hsome
  have hp := List.find?_some hk2
  refine ⟨k2, by simpa using hp, ?_⟩
  exact evalExprTree_err_of_check (checkNode_err_of_find hk2)

/-- Witness for C2: an expression containing an attribute access is rejected
with a disallowed kind. -/
theorem validate_rejects_constructs_strings_pass_witness :
    ∃ k2, isAllowedKind k2 = false ∧
      evalExprTree [] (.attr (.name "a") "b") = .error (.rejected k2) :=
  (validate_rejects_constructs_strings_pass [] (.attr (.name "a") "b")).1
    "Attribute" (by decide) (by decide)

/-- The runtime value a viewed number denotes. -/
def numValue : Int ⊕ ℚ → Value
  | .inl n => .int n
  | .inr q => .real q

theorem numView_numValue (a : Int ⊕ ℚ) : numView (numValue a) = some a := by
  cases a <;> rfl

/-- C4.  A failed inner evaluation leaves the session untouched: both
`Calculator.assign` and `Calculator.evaluate` write to the variables mapping
and append to the history only after `eval_expr` has succeeded. -/
theorem failed_evaluation_leaves_session_unchanged
    (st : CalcState) (name expr : String) (e : Err)
    (h : eval_expr st.vars expr = .error e) :
    (Calculator.assign st name expr).2 = st ∧
    (Calculator.evaluate st expr).2 = st := by
  constructor
  · unfold Calculator.assign
    by_cases hid : isPyIdentifier name.trim
    · simp [hid, h]
    · simp [hid]
  · unfold Calculator.evaluate
    simp [h]

/-- Witness for C4: an unknown identifier fails with `NameError` and leaves
the fresh session unchanged. -/
theorem failed_evaluation_leaves_session_unchanged_witness :
    (Calculator.assign CalcState.initial "x" "totallyUndefinedName").2 = CalcState.initial ∧
    (Calculator.evaluate CalcState.initial "totallyUndefinedName").2 = CalcState.initial :=
  failed_evaluation_leaves_session_unchanged CalcState.initial "x"
    "totallyUndefinedName" (.nameError "totallyUndefinedName") rfl

/-- C5.  Identifier resolution looks in the session variables first and in
the immutable `ALLOWED_GLOBALS` second — a user variable shadows a same-named
global — and fails with `NameError` carrying the name exactly when it is
absent from both mappings. -/
theorem name_lookup_variables_shadow_globals
    (vars : List (String × Value)) (s : String) :
    (∀ v, vars.lookup s = some v → evalNode vars (.name s) = .ok v) ∧
    (vars.lookup s = Option.none → ∀ v, ALLOWED_GLOBALS.lookup s = some v →
       evalNode vars (.name s) = .ok v) ∧
    (evalNode vars (.name s) = .error (.nameError s) ↔
       vars.lookup s = Option.none ∧ ALLOWED_GLOBALS.lookup s = Option.none) := by
  refine ⟨fun v hv => by simp [evalNode, hv], fun hn v hg => by simp [evalNode, hn, hg], ?_⟩
  constructor
  · intro h
    cases hv : vars.lookup s with
    | some v => simp [evalNode, hv] at h
    | none =>
        cases hg : ALLOWED_GLOBALS.lookup s with
        | some v => simp [evalNode, hv, hg] at h
        | none => exact ⟨rfl, rfl⟩
  · rintro ⟨h1, h2⟩
    simp [evalNode, h1, h2]

/-- Witness for C5: a user variable named `pi` shadows the global constant
`pi`. -/
theorem name_lookup_variables_shadow_globals_witness :
    evalNode [("pi", Value.int 3)] (.name "pi") = .ok (.int 3) :=
  (name_lookup_variables_shadow_globals [("pi", Value.int 3)] "pi").1 (.int 3) rfl

/-- C6.  Whenever the right operand of `/`, `//` or `%` evaluates to a zero
number, the binary operation fails with `ZeroDivisionError`, which is an
`ArithmeticError`; in particular the whole pipeline on `1 / 0` fails so. -/
theorem division_by_zero_fails_arithmetic
    (vars : List (String × Value)) (a b : PyExpr) (op : BinOpKind)
    (x y : Int ⊕ ℚ)
    (hop : op = .div ∨ op = .floorDiv ∨ op = .mod)
    (ha : evalNode vars a = .ok (numValue x))
    (hb : evalNode vars b = .ok (numValue y))
    (hy : toQ y = 0) :
    evalNode vars (.binOp a op b) = .error .zeroDivision ∧
    Err.isArithmeticError .zeroDivision = true ∧
    eval_expr [] "1 / 0" = .error .zeroDivision := by
  refine ⟨?_, rfl, rfl⟩
  have : evalNode vars (.binOp a op b) = binOpVal op (numValue x) (numValue y) := by
    simp only [evalNode, ha, hb]
    rfl
  rw [this]
  rcases hop with h | h | h <;> subst h <;>
    simp [binOpVal, numView_numValue, numericOp, hy]

/-- Witness for C6: the tree of `1 / 0` fails with `ZeroDivisionError`. -/
theorem division_by_zero_fails_arithmetic_witness :
    evalNode [] (.binOp (.const (.int 1)) .div (.const (.int 0))) =
      .error .zeroDivision :=
  (division_by_zero_fails_arithmetic [] (.const (.int 1)) (.const (.int 0))
    .div (.inl 1) (.inl 0) (Or.inl rfl) rfl rfl rfl).1

/-- C7.  `factorial(-1)` fails with the domain `ValueError` — classed as
`ArithmeticError` by the specification's error taxonomy — and
`factorial(2.5)` fails with `TypeError`; both are typed failures the caller
can catch, not crashes. -/
theorem factorial_negative_and_fractional_fail_typed :
    eval_expr [] "factorial(-1)" =
      .error (.domainError "factorial not defined for negative values") ∧
    (Err.isTypeError (.domainError "factorial not defined for negative values") ||
     Err.isArithmeticError (.domainError "factorial not defined for negative values")) = true ∧
    eval_expr [] "factorial(2.5)" =
      .error (.typeError "float cannot be interpreted as an integer") ∧
    (Err.isTypeError (.typeError "float cannot be interpreted as an integer") ||
     Err.isArithmeticError (.typeError "float cannot be interpreted as an integer")) = true :=
  ⟨rfl, rfl, rfl, rfl⟩

/-- The tree `ast.parse` produces for `pct(15, b=240)`. -/
def pctKwTree : PyExpr :=
  .call (.name "pct") [.const (.int 15)] [("b", .const (.int 240))]

/-- C8 (failing-input theorem).  A call with keyword-argument syntax is
rejected by validation — `ast.keyword` is missing from `ALLOWED_NODES`, so
`_check_node` raises on any keyword node — even though `_eval` itself
supports keyword arguments and computes `pct(15, b=240) = 36.0` when run
directly on the tree, and the equivalent positional call succeeds end to end;
calling a non-callable resolved value fails with the call error. -/
theorem keyword_call_rejected_despite_eval_support :
    parseExpr "pct(15, b=240)" = .ok pctKwTree ∧
    eval_expr [] "pct(15, b=240)" = .error (.rejected "keyword") ∧
    evalNode [] pctKwTree = .ok (.real 36) ∧
    eval_expr [] "pct(15, 240)" = .ok (.real 36) ∧
    eval_expr [] "pi(3)" = .error .notCallable ∧
    Value.isCallable (.extReal "pi") = false :=
  by
  refine ⟨rfl, rfl, ?_, ?_, rfl, rfl⟩
  · show Except.ok (Value.real (((15 * 240 : ℤ) : ℚ) / ((100 : ℚ)))) = _
    norm_num
  · show Except.ok (Value.real (((15 * 240 : ℤ) : ℚ) / ((100 : ℚ)))) = _
    norm_num

/-- The rational a value denotes under the numeric view (0 outside it). -/
def ratOf (v : Value) : ℚ :=
  match numView v with
  | some a => toQ a
  | Option.none => 0

/-- Python numeric addition on viewed numbers: `int + int` stays `int`,
anything else promotes to `float`. -/
def numAdd : Int ⊕ ℚ → Int ⊕ ℚ → Int ⊕ ℚ
  | .inl m, .inl n => .inl (m + n)
  | a, b => .inr (toQ a + toQ b)

theorem toQ_numAdd (x y : Int ⊕ ℚ) : toQ (numAdd x y) = toQ x + toQ y := by
  cases x <;> cases y <;> simp [numAdd, toQ]

theorem binOpVal_add_eq {v w : Value} {x y : Int ⊕ ℚ}
    (hx : numView v = some x) (hy : numView w = some y) :
    binOpVal .add v w = .ok (numValue (numAdd x y)) := by
  cases x <;> cases y <;>
    simp [binOpVal, hx, hy, numericOp, numBin, numAdd, numValue]

theorem ratOf_eq_toQ {v : Value} {x : Int ⊕ ℚ} (hx : numView v = some x) :
    ratOf v = toQ x := by
  simp [ratOf, hx]

theorem pySumFold_spec :
    ∀ (xs : List Value) (a : Int ⊕ ℚ), (∀ v ∈ xs, (numView v).isSome) →
    ∃ z, pySumFold (numValue a) xs = .ok (numValue z) ∧
      toQ z = toQ a + (xs.map ratOf).sum := by
  intro xs
  induction xs with
  | nil => exact fun a _ => ⟨a, rfl, by simp⟩
  | cons v vs ih =>
      intro a hnum
      obtain ⟨y, hy⟩ := Option.isSome_iff_exists.mp (hnum v (by simp))
      obtain ⟨z, hfold, hsum⟩ := ih (numAdd a y) (fun w hw => hnum w (by simp [hw]))
      refine ⟨z, ?_, ?_⟩
      · rw [show pySumFold (numValue a) (v :: vs) =
            match binOpVal .add (numValue a) v with
            | .ok w => pySumFold w vs
            | .error e => .error e from rfl,
          binOpVal_add_eq (numView_numValue a) hy]
        exact hfold
      · rw [hsum, toQ_numAdd]
        simp [ratOf_eq_toQ hy]
        ring

/-- C10.  `avg()` does not fail: the empty call returns `nan`; with one or
more numeric arguments `avg` returns their sum divided by their count, as a
`float`. -/
theorem avg_empty_returns_nan_else_mean :
    eval_expr [] "avg()" = .ok .nan ∧
    ∀ (xs : List Value), xs ≠ [] → (∀ v ∈ xs, (numView v).isSome) →
      applyFn .avg xs [] = .ok (.real ((xs.map ratOf).sum / (xs.length : ℚ))) := by
  refine ⟨rfl, fun xs hne hnum => ?_⟩
  obtain ⟨z, hfold, hsum⟩ := pySumFold_spec xs (.inl 0) hnum
  have hz : toQ z = (xs.map ratOf).sum := by
    rw [hsum]
    simp [toQ]
  have hempty : xs.isEmpty = false := by
    cases xs with
    | nil => exact absurd rfl hne
    | cons _ _ => rfl
  have hlen : ((xs.length : ℤ) : ℚ) ≠ 0 := by
    have : xs.length ≠ 0 := by
      simpa [List.length_eq_zero] using hne
    push_cast
    exact_mod_cast this
  show pyAvg xs [] = _
  unfold pyAvg
  rw [show (!([] : List (String × Value)).isEmpty) = false from rfl, if_neg (by simp),
    hempty, if_neg (by simp)]
  rw [show pySumFold (Value.int 0) xs = pySumFold (numValue (.inl 0)) xs from rfl, hfold]
  show binOpVal .div (numValue z) (.int (xs.length : ℤ)) = _
  cases z with
  | inl m =>
      simp only [binOpVal, numValue, numView, numericOp, toQ]
      rw [if_neg hlen]
      rw [show toQ (.inl m) = (m : ℚ) from rfl] at hz
      rw [hz]
      norm_cast
  | inr q =>
      simp only [binOpVal, numValue, numView, numericOp, toQ]
      rw [if_neg hlen]
      rw [show toQ (.inr q) = q from rfl] at hz
      rw [hz]
      norm_cast

/-- Witness for C10: `avg` of the two ints 1 and 2. -/
theorem avg_empty_returns_nan_else_mean_witness :
    applyFn .avg [Value.int 1, Value.int 2] [] =
      .ok (.real (([Value.int 1, Value.int 2].map ratOf).sum /
        (([Value.int 1, Value.int 2].length : Nat) : ℚ))) :=
  avg_empty_returns_nan_else_mean.2 [Value.int 1, Value.int 2]
    (by simp) (by decide)

theorem fdiv_neg_neg (a b : Int) : (-a).fdiv (-b) = a.fdiv b := by
  rcases eq_or_ne b 0 with rfl | hb
  · simp
  · rcases a with (_ | m) | m <;> rcases b with (_ | n) | n <;>
      first
      | rfl
      | exact absurd rfl hb

theorem fdiv_eq_floor (a b : Int) : a.fdiv b = Int.floor ((a : ℚ) / (b : ℚ)) := by
  rcases lt_trichotomy b 0 with hb | hb | hb
  · have hpos : (0 : ℤ) < -b := by omega
    have hcast : (((-b).toNat : ℕ) : ℚ) = ((-b : ℤ) : ℚ) := by
      exact_mod_cast congrArg (fun z : ℤ => (z : ℚ))
        (Int.toNat_of_nonneg hpos.le)
    have h2 := Rat.floor_intCast_div_natCast (-a) (-b).toNat
    rw [hcast, Int.toNat_of_nonneg hpos.le] at h2
    have h1 : ((-a : ℤ) : ℚ) / ((-b : ℤ) : ℚ) = (a : ℚ) / (b : ℚ) := by
      push_cast
      rw [neg_div_neg_eq]
    rw [h1] at h2
    rw [← fdiv_neg_neg a b, Int.fdiv_eq_ediv _ hpos.le, h2]
  · subst hb
    simp
  · have hcast : ((b.toNat : ℕ) : ℚ) = (b : ℚ) := by
      exact_mod_cast congrArg (fun z : ℤ => (z : ℚ)) (Int.toNat_of_nonneg hb.le)
    have h2 := Rat.floor_intCast_div_natCast a b.toNat
    rw [hcast, Int.toNat_of_nonneg hb.le] at h2
    rw [Int.fdiv_eq_ediv _ hb.le, h2]

theorem fmod_eq_sub_floor (a b : Int) :
    a.fmod b = a - b * Int.floor ((a : ℚ) / (b : ℚ)) := by
  rw [Int.fmod_def, fdiv_eq_floor]

/-- The seven arithmetic operator kinds the allow-list admits. -/
def isArithOp : BinOpKind → Bool
  | .add | .sub | .mult | .div | .floorDiv | .mod | .pow => true
  | _ => false

/-- Trees built only from numeric literals, arithmetic binary operators and
unary sign. -/
def litOnly : PyExpr → Bool
  | .const (.int _) => true
  | .const (.real _) => true
  | .binOp l op r => isArithOp op && litOnly l && litOnly r
  | .unaryOp .uadd e => litOnly e
  | .unaryOp .usub e => litOnly e
  | _ => false

/-- Direct numeric computation, written from the specification's words
(section 4.1 `evaluate`): `+ - *` standard with `int`-`int` staying `int`;
`/` true division; `//` floor division, i.e. the floor of the true quotient;
`%` the floor-division-consistent remainder `a - b * floor(a / b)` (sign
follows the divisor); `**` exponentiation supporting negative exponents;
division and modulo by zero fail with the arithmetic error. -/
def dApply (op : BinOpKind) (a b : Int ⊕ ℚ) : Except Err (Int ⊕ ℚ) :=
  match op with
  | .add =>
      .ok (match a, b with
        | .inl m, .inl n => .inl (m + n)
        | _, _ => .inr (toQ a + toQ b))
  | .sub =>
      .ok (match a, b with
        | .inl m, .inl n => .inl (m - n)
        | _, _ => .inr (toQ a - toQ b))
  | .mult =>
      .ok (match a, b with
        | .inl m, .inl n => .inl (m * n)
        | _, _ => .inr (toQ a * toQ b))
  | .div =>
      if toQ b = 0 then .error .zeroDivision
      else .ok (.inr (toQ a / toQ b))
  | .floorDiv =>
      if toQ b = 0 then .error .zeroDivision
      else
        .ok (match a, b with
          | .inl m, .inl n => .inl (Int.floor ((m : ℚ) / (n : ℚ)))
          | _, _ => .inr ((Int.floor (toQ a / toQ b) : ℤ) : ℚ))
  | .mod =>
      if toQ b = 0 then .error .zeroDivision
      else
        .ok (match a, b with
          | .inl m, .inl n => .inl (m - n * Int.floor ((m : ℚ) / (n : ℚ)))
          | _, _ => .inr (toQ a - toQ b * ((Int.floor (toQ a / toQ b) : ℤ) : ℚ)))
  | .pow =>
      match a, b with
      | .inl m, .inl n =>
          if 0 ≤ n then .ok (.inl (m ^ n.toNat))
          else if m = 0 then .error .zeroDivision
          else .ok (.inr ((m : ℚ) ^ n))
      | _, _ =>
          match b with
          | .inl n =>
              if toQ a = 0 ∧ n < 0 then .error .zeroDivision
              else .ok (.inr (toQ a ^ n))
          | .inr q =>
              if q.den = 1 then
                if toQ a = 0 ∧ q.num < 0 then .error .zeroDivision
                else .ok (.inr (toQ a ^ q.num))
              else .error (.extNotModelled "fractional exponent")
  | _ => .error .unsupportedOp

/-- Direct evaluation of a literal-only arithmetic tree (the specification's
direct numeric computation); independent of any environment. -/
def directEval : PyExpr → Except Err (Int ⊕ ℚ)
  | .const (.int n) => .ok (.inl n)
  | .const (.real q) => .ok (.inr q)
  | .binOp l op r => do
      let a ← directEval l
      let b ← directEval r
      dApply op a b
  | .unaryOp .uadd e => directEval e
  | .unaryOp .usub e => do
      let a ← directEval e
      match a with
      | .inl n => pure (.inl (-n))
      | .inr q => pure (.inr (-q))
  | _ => .error (.extNotModelled "not a literal arithmetic expression")

theorem binOpVal_direct {op : BinOpKind} (hop : isArithOp op = true)
    (x y : Int ⊕ ℚ) :
    binOpVal op (numValue x) (numValue y) = (dApply op x y).map numValue := by
  cases op
  case add => cases x <;> cases y <;> rfl
  case sub => cases x <;> cases y <;> rfl
  case mult => cases x <;> cases y <;> rfl
  case div =>
      cases x <;> cases y <;>
        simp only [binOpVal, numValue, numView, numericOp, dApply] <;>
        split_ifs <;> rfl
  case floorDiv =>
      cases x <;> cases y <;>
        simp only [binOpVal, numValue, numView, numericOp, numBin, dApply] <;>
        split_ifs <;> (try rw [fdiv_eq_floor]) <;> rfl
  case mod =>
      cases x <;> cases y <;>
        simp only [binOpVal, numValue, numView, numericOp, numBin, dApply] <;>
        split_ifs <;> (try rw [fmod_eq_sub_floor]) <;> rfl
  case pow =>
      cases x <;> cases y <;>
        simp only [binOpVal, numValue, numView, numericOp, numPow, dApply] <;>
        split_ifs <;> rfl
  all_goals simp [isArithOp] at hop

theorem evalNode_litOnly (vars : List (String × Value)) :
    (t : PyExpr) → litOnly t = true →
      evalNode vars t = (directEval t).map numValue
  | .const (.int n), _ => rfl
  | .const (.real q), _ => rfl
  | .const (.bool _), h => by simp [litOnly] at h
  | .const (.str _), h => by simp [litOnly] at h
  | .const .none, h => by simp [litOnly] at h
  | .binOp l op r, h => by
      simp only [litOnly, Bool.and_eq_true] at h
      obtain ⟨⟨hop, hl⟩, hr⟩ := h
      have el := evalNode_litOnly vars l hl
      have er := evalNode_litOnly vars r hr
      simp only [evalNode, directEval, el, er]
      cases directEval l with
      | error e => rfl
      | ok a =>
          cases directEval r with
          | error e => rfl
          | ok b =>
              show binOpVal op (numValue a) (numValue b) = _
              rw [binOpVal_direct hop]
              rfl
  | .unaryOp .uadd e, h => by
      have hl : litOnly e = true := by simpa [litOnly] using h
      have he := evalNode_litOnly vars e hl
      simp only [evalNode, directEval, he]
      cases directEval e with
      | error e2 => rfl
      | ok a => cases a <;> rfl
  | .unaryOp .usub e, h => by
      have hl : litOnly e = true := by simpa [litOnly] using h
      have he := evalNode_litOnly vars e hl
      simp only [evalNode, directEval, he]
      cases directEval e with
      | error e2 => rfl
      | ok a => cases a <;> rfl
  | .unaryOp .notOp e, h => by simp [litOnly] at h
  | .unaryOp .invert e, h => by simp [litOnly] at h
  | .name _, h => by simp [litOnly] at h
  | .call _ _ _, h => by simp [litOnly] at h
  | .tuple _, h => by simp [litOnly] at h
  | .list _, h => by simp [litOnly] at h
  | .attr _ _, h => by simp [litOnly] at h
  | .subscript _ _, h => by simp [litOnly] at h
  | .lam _ _, h => by simp [litOnly] at h
  | .namedExpr _ _, h => by simp [litOnly] at h
  | .compare _ _, h => by simp [litOnly] at h
  | .boolOp _ _, h => by simp [litOnly] at h
  | .ifExp _ _ _, h => by simp [litOnly] at h
  | .listComp _ _, h => by simp [litOnly] at h
  | .dict _ _, h => by simp [litOnly] at h
  | .starred _, h => by simp [litOnly] at h

/-- C3.  On expressions built only from numeric literals the evaluator agrees
with direct numeric computation (`directEval`, which mentions no environment,
so the result is also independent of the session variables), and the parser
implements the standard precedence: `2 + 3 * 4` evaluates to `14`, `2 ** 10`
to `1024`, `7 // 2` to `3` and `-7 % 2` to `1` (modulo sign follows the
divisor, consistently with floor division). -/
theorem literal_arithmetic_matches_direct_computation :
    (∀ (vars : List (String × Value)) (t : PyExpr), litOnly t = true →
       evalNode vars t = (directEval t).map numValue) ∧
    eval_expr [] "2 + 3 * 4" = .ok (.int 14) ∧
    eval_expr [] "2 ** 10" = .ok (.int 1024) ∧
    eval_expr [] "7 // 2" = .ok (.int 3) ∧
    eval_expr [] "-7 % 2" = .ok (.int 1) :=
  ⟨fun vars t h => evalNode_litOnly vars t h, rfl, rfl, rfl, rfl⟩

/-- Witness for C3: the tree of `2 + 3 * 4` evaluates to the direct
computation's result under any variables. -/
theorem literal_arithmetic_matches_direct_computation_witness :
    evalNode [("x", Value.int 5)]
      (.binOp (.const (.int 2)) .add
        (.binOp (.const (.int 3)) .mult (.const (.int 4)))) =
    (directEval
      (.binOp (.const (.int 2)) .add
        (.binOp (.const (.int 3)) .mult (.const (.int 4))))).map numValue :=
  literal_arithmetic_matches_direct_computation.1 [("x", Value.int 5)]
    (.binOp (.const (.int 2)) .add
      (.binOp (.const (.int 3)) .mult (.const (.int 4)))) (by decide)

mutual

/-- Values the JSON save/load cycle preserves: numbers, strings, booleans,
`None`, the float specials and lists of such.  Tuples come back as lists and
callables come back as their `str` representation, so they are not stable. -/
def jsonStable : Value → Bool
  | .int _ => true
  | .real _ => true
  | .bool _ => true
  | .str _ => true
  | .none => true
  | .nan => true
  | .inf _ => true
  | .extReal _ => true
  | .list xs => jsonStableList xs
  | .tuple _ => false
  | .func _ => false

/-- `jsonStable` over a list. -/
def jsonStableList : List Value → Bool
  | [] => true
  | v :: vs => jsonStable v && jsonStableList vs

end

mutual

theorem fromJson_toJson : (v : Value) → jsonStable v = true →
    fromJson (toJson v) = .ok v
  | .int _, _ => rfl
  | .real _, _ => rfl
  | .bool _, _ => rfl
  | .str _, _ => rfl
  | .none, _ => rfl
  | .nan, _ => rfl
  | .inf _, _ => rfl
  | .extReal _, _ => rfl
  | .list xs, h => by
      have hx : jsonStableList xs = true := by simpa [jsonStable] using h
      have ihx := fromJsonList_toJsonList xs hx
      simp only [toJson, fromJson, ihx]
      rfl
  | .tuple _, h => by simp [jsonStable] at h
  | .func _, h => by simp [jsonStable] at h

theorem fromJsonList_toJsonList : (xs : List Value) → jsonStableList xs = true →
    fromJsonList (toJsonList xs) = .ok xs
  | [], _ => rfl
  | v :: vs, h => by
      rw [show jsonStableList (v :: vs) = (jsonStable v && jsonStableList vs) from rfl,
        Bool.and_eq_true] at h
      obtain ⟨hv, hvs⟩ := h
      have ihv := fromJson_toJson v hv
      have ihvs := fromJsonList_toJsonList vs hvs
      simp only [toJsonList, fromJsonList, ihv, ihvs]
      rfl

end

theorem decodeVars_save : ∀ (vars : List (String × Value)),
    vars.all (fun p => jsonStable p.2) = true →
    decodeVars (.obj (vars.map (fun p => (p.1, toJson p.2)))) = .ok vars := by
  intro vars
  induction vars with
  | nil => intro _; rfl
  | cons p rest ih =>
      intro h
      rw [List.all_cons, Bool.and_eq_true] at h
      obtain ⟨hp, hrest⟩ := h
      have ihr := ih hrest
      simp only [List.map_cons, decodeVars, List.mapM_cons] at ihr ⊢
      rw [fromJson_toJson p.2 hp, ihr]
      rfl

theorem decodeResult_encode (r : EvalResult) (h : jsonStable r.value = true) :
    decodeResult (encodeResult r) = .ok r := by
  simp only [encodeResult, decodeResult]
  rw [fromJson_toJson r.value h]
  rfl

theorem decodeHist_save : ∀ (hist : List EvalResult),
    hist.all (fun r => jsonStable r.value) = true →
    decodeHist (.arr (hist.map encodeResult)) = .ok hist := by
  intro hist
  induction hist with
  | nil => intro _; rfl
  | cons r rest ih =>
      intro h
      rw [List.all_cons, Bool.and_eq_true] at h
      obtain ⟨hr, hrest⟩ := h
      have ihr := ih hrest
      simp only [List.map_cons, decodeHist, List.mapM_cons] at ihr ⊢
      rw [decodeResult_encode r hr, ihr]
      rfl

/-- Sessions whose variables and history hold only JSON-stable values. -/
def stableState (st : CalcState) : Bool :=
  st.vars.all (fun p => jsonStable p.2) && st.history.all (fun r => jsonStable r.value)

/-- A session holding a tuple-valued variable. -/
def tupleSession : CalcState :=
  ⟨[("t", .tuple [.int 1, .int 2])], []⟩

/-- Counterexample to C9 as stated: saving a session in which `t` holds the
tuple `(1, 2)` and loading it back yields `t` holding the *list* `[1, 2]` —
JSON has no tuples, so `json.dump` writes an array and `json.load` restores a
list — hence the round-trip does not reproduce an identical variables
mapping for every session state. -/
theorem save_load_changes_tuple_valued_variable :
    loadSession CalcState.initial (saveSession tupleSession) =
      .ok ⟨[("t", .list [.int 1, .int 2])], []⟩ ∧
    loadSession CalcState.initial (saveSession tupleSession) ≠ .ok tupleSession := by
  constructor
  · rfl
  · intro h
    have h1 : (⟨[("t", Value.list [.int 1, .int 2])], []⟩ : CalcState) = tupleSession := by
      have h0 : loadSession CalcState.initial (saveSession tupleSession) =
          .ok ⟨[("t", Value.list [.int 1, .int 2])], []⟩ := rfl
      exact Except.ok.inj (h0.symm.trans h)
    have h2 := congrArg CalcState.vars h1
    simp [tupleSession] at h2

/-- C9 (amended).  Saving and then loading reproduces the identical variables
mapping and history — same keys, same values, same order — whenever every
stored value survives JSON (no tuples, no callables); and loading replaces
the entire in-memory state, with no dependence on the prior session. -/
theorem save_load_roundtrip_stable_and_replaces :
    (∀ (prior st : CalcState), stableState st = true →
       loadSession prior (saveSession st) = .ok st) ∧
    (∀ (p1 p2 : CalcState) (j : Json), loadSession p1 j = loadSession p2 j) := by
  refine ⟨fun prior st hst => ?_, fun _ _ _ => rfl⟩
  rw [stableState, Bool.and_eq_true] at hst
  obtain ⟨h1, h2⟩ := hst
  have hv : objGet (saveSession st) "variables" (.obj []) =
      .obj (st.vars.map (fun p => (p.1, toJson p.2))) := rfl
  have hh : objGet (saveSession st) "history" (.arr []) =
      .arr (st.history.map encodeResult) := rfl
  show (do
      let vars ← decodeVars (objGet (saveSession st) "variables" (.obj []))
      let hist ← decodeHist (objGet (saveSession st) "history" (.arr []))
      pure (⟨vars, hist⟩ : CalcState)) = .ok st
  rw [hv, hh, decodeVars_save st.vars h1, decodeHist_save st.history h2]
  rfl

/-- Witness for C9 (amended): a session with an int, a float string history
entry round-trips identically. -/
theorem save_load_roundtrip_stable_and_replaces_witness :
    loadSession CalcState.initial
      (saveSession ⟨[("x", Value.int 10)], [⟨"x = 10", Value.int 10, true⟩]⟩) =
    .ok ⟨[("x", Value.int 10)], [⟨"x = 10", Value.int 10, true⟩]⟩ :=
  save_load_roundtrip_stable_and_replaces.1 CalcState.initial
    ⟨[("x", Value.int 10)], [⟨"x = 10", Value.int 10, true⟩]⟩ (by decide)
